import Mathlib

/-!
# Verification of the scheduled-analysis orchestrator (`src/main.py`)

Shallow embedding of the crypto-analysis bot's orchestration layer: the three
scheduled jobs (`hourly_analysis`, `four_hour_analysis`, `volume_spike_monitor`),
the on-demand commands (`manual_analysis`, `top_gainers`), the shared
`last_analysis_time` state, and the opportunity ranker.

Python dictionaries become association lists (`List (String × _)`), numeric
scores become `Int`, timestamps become `Nat`.  Every collaborator call
(`get_comprehensive_market_data`, `john_analysis`, `alpha_analysis`,
`detect_volume_spikes`, `detect_whale_movements`, `deep_coin_analysis`) and
every `channel.send` / `ctx.send` is mediated by an environment `Env` that
fixes, for one run, the collaborator outcomes (a value or a raised exception,
as `Except String _`) and which send attempts raise.  A run is a pure function
from `Env` and the current `last_analysis_time` map to a `RunResult`: the list
of messages actually sent in order, the collaborator calls performed, the
pacing sleeps performed, the resulting state, and the exception (if any) that
propagated out of the job body.
-/

/-- A Python dict record with string keys and numeric values
(price, percent-change and score fields as used by `main.py`). -/
abbrev Record := List (String × Int)

/-- `get_comprehensive_market_data()` result: symbol → record.  The empty list
models a falsy ("unavailable") fetch result. -/
abbrev MarketData := List (String × Record)

/-- `john_analysis` / `alpha_analysis` result: symbol → analysis record. -/
abbrev AnalysisResults := List (String × Record)

/-- The global `last_analysis_time` dict: job name → timestamp. -/
abbrev JobTimes := List (String × Nat)

/-- One volume-spike alert as returned by `detect_volume_spikes` (the code
reads `alert['volume_increase']`). -/
structure VolAlert where
  symbol : String
  volume_increase : Int
deriving DecidableEq

/-- Messages sent to the Discord channel / context, tagged by which `send`
site of `main.py` produced them. -/
inductive Msg where
  /-- "⚠️ Market Data Unavailable" (hourly, line 36). -/
  | dataUnavailable : Msg
  /-- The dedicated "1H Bitcoin Report" embed (line 55). -/
  | btcReport : Msg
  /-- A "🚀 HIGH POTENTIAL" altcoin alert (line 66). -/
  | altcoinAlert (symbol : String) : Msg
  /-- The "1H Market Overview" summary embed (line 72). -/
  | marketOverview : Msg
  /-- "❌ Analysis Error - ..." from the hourly except block (line 79). -/
  | analysisError (e : String) : Msg
  /-- A "⚡ PREMIUM SIGNAL" alert (line 104). -/
  | premiumSignal (symbol : String) : Msg
  /-- A "📊 VOLUME SPIKE" alert (line 128). -/
  | volumeSpikeAlert (a : VolAlert) : Msg
  /-- A "🐋 WHALE MOVEMENT" alert (line 134). -/
  | whaleAlert (r : Record) : Msg
  /-- "🔄 Analyzing market data..." (line 144). -/
  | analyzingWait : Msg
  /-- "❌ Error - Unable to fetch market data" (lines 148, 186). -/
  | fetchError : Msg
  /-- The single-coin "Manual" analysis embed (line 158). -/
  | manualCoinReport (coin : String) : Msg
  /-- "❌ Coin not found - ..." (line 160). -/
  | coinNotFound (coin : String) : Msg
  /-- A "🎯 OPPORTUNITY #i" alert (line 170). -/
  | opportunityAlert (i : Nat) (symbol : String) : Msg
  /-- "❌ Analysis failed - ..." from the manual except block (line 176). -/
  | manualError (e : String) : Msg
  /-- "📈 Fetching top gainers..." (line 182). -/
  | fetchingTop (timeframe : String) : Msg
  /-- The "🏆 Top Gainers" embed with its sorted coin list (line 214). -/
  | topGainers (coins : List (String × Record)) : Msg
  /-- "❌ Error - ..." from the top-gainers except block (line 217). -/
  | topError (e : String) : Msg
deriving DecidableEq

/-- Collaborator calls a run performs, in order. -/
inductive Call where
  | fetch : Call
  | john : Call
  | alpha : Call
  | rank : Call
  | detectVolume : Call
  | detectWhale : Call
  | deepCoin : Call
deriving DecidableEq

/-- The environment of one run: what the channel lookup, the collaborators and
the message sends do during that run.  `sendFails k = true` means the `k`-th
send attempt of the run raises. -/
structure Env where
  channel : Bool
  marketData : MarketData
  john : Except String AnalysisResults
  alpha : Except String AnalysisResults
  volumeAlerts : Except String (List VolAlert)
  whaleAlerts : Except String (List Record)
  deepCoin : Except String AnalysisResults
  sendFails : Nat → Bool
  now : Nat

/-- Running trace of one job body: messages sent, collaborator calls made,
pacing sleeps performed, and the number of send attempts so far. -/
structure Tr where
  msgs : List Msg
  calls : List Call
  sleeps : List Nat
  n : Nat
deriving DecidableEq

/-- The empty trace at the start of a run. -/
def Tr.init : Tr := { msgs := [], calls := [], sleeps := [], n := 0 }

/-- One `channel.send` / `ctx.send`: raises (carrying the trace at the raise
point) when the environment says this attempt fails, otherwise appends the
message. -/
def send (env : Env) (t : Tr) (m : Msg) : Except (String × Tr) Tr :=
  if env.sendFails t.n then
    Except.error ("send failed", { t with n := t.n + 1 })
  else
    Except.ok { t with msgs := t.msgs ++ [m], n := t.n + 1 }

/-- One `asyncio.sleep(d)` pacing delay. -/
def sleep (t : Tr) (d : Nat) : Tr := { t with sleeps := t.sleeps ++ [d] }

/-- Record one collaborator call. -/
def call (t : Tr) (c : Call) : Tr := { t with calls := t.calls ++ [c] }

/-- The hourly job's pacing delay: `asyncio.sleep(2)` (lines 56, 67). -/
def hourlyPacingDelay : Nat := 2

/-- The four-hour job's pacing delay: `asyncio.sleep(3)` (line 106). -/
def fourHourPacingDelay : Nat := 3

/-- Python dict assignment `d[k] = v` on an association list: replaces the
existing binding in place, else appends at the end. -/
def setEntry : JobTimes → String → Nat → JobTimes
  | [], k, v => [(k, v)]
  | (k', v') :: rest, k, v =>
      if k' = k then (k, v) :: rest else (k', v') :: setEntry rest k v

/-- Outcome of one run. -/
structure RunResult where
  msgs : List Msg
  calls : List Call
  sleeps : List Nat
  state : JobTimes
  raised : Option String
deriving DecidableEq

/-- Source tag of an opportunity (spec §3: John, Alpha, or Combined). -/
inductive Source where
  | john : Source
  | alpha : Source
  | combined : Source
deriving DecidableEq

/-- A ranked opportunity (spec §3): symbol, combined score, source. -/
structure Opportunity where
  symbol : String
  score : Int
  source : Source
deriving DecidableEq

/-- The score an analysis record reports, if any. -/
def scoreOf (r : Record) : Option Int := r.lookup "score"

/-- Ranking order (spec §4.2): score descending, ties by symbol ascending. -/
def oppLE (a b : Opportunity) : Prop :=
  b.score < a.score ∨ (a.score = b.score ∧ a.symbol ≤ b.symbol)

instance : DecidableRel oppLE := fun a b => by
  unfold oppLE; infer_instance

instance : IsTotal Opportunity oppLE where
  total a b := by
    unfold oppLE
    rcases lt_trichotomy a.score b.score with h | h | h
    · exact Or.inr (Or.inl h)
    · rcases le_total a.symbol b.symbol with hs | hs
      · exact Or.inl (Or.inr ⟨h, hs⟩)
      · exact Or.inr (Or.inr ⟨h.symm, hs⟩)
    · exact Or.inl (Or.inl h)

instance : IsTrans Opportunity oppLE where
  trans a b c hab hbc := by
    unfold oppLE at *
    rcases hab with h1 | ⟨h1, h1s⟩ <;> rcases hbc with h2 | ⟨h2, h2s⟩
    · exact Or.inl (h2.trans h1)
    · exact Or.inl (h2 ▸ h1)
    · exact Or.inl (h1 ▸ h2)
    · exact Or.inr ⟨h1.trans h2, le_trans h1s h2s⟩

/-- The combined score of a symbol reported by the two analysis sources
(spec §4.2): if both report a score, combine deterministically (policy chosen
here: the maximum of the two); if only one reports, use it; if neither record
reports a score, the symbol yields no opportunity. -/
def combineScores (s : String) (js sa : Option Int) : Option Opportunity :=
  match js, sa with
  | some j, some a => some ⟨s, max j a, Source.combined⟩
  | some j, none => some ⟨s, j, Source.john⟩
  | none, some a => some ⟨s, a, Source.alpha⟩
  | none, none => none

/-- Modelled from the spec: `rank_opportunities` lives in
`src/analysis/scoring_engine.py`, which is not part of the visible repository
(only its caller `src/main.py` is).  Spec §4.2: for every symbol present in
either result set, compute a combined score; discard entries with combined
score below `min_score`; sort descending by score with ties broken by symbol
name ascending; return a fresh sequence without mutating the inputs. -/
def rank_opportunities (john_results alpha_results : AnalysisResults)
    (min_score : Int) : List Opportunity :=
  let symbols := (john_results.map Prod.fst ++ alpha_results.map Prod.fst).dedup
  let opps := symbols.filterMap (fun s =>
    combineScores s ((john_results.lookup s).bind scoreOf)
      ((alpha_results.lookup s).bind scoreOf))
  let filtered := opps.filter (fun o => min_score ≤ o.score)
  List.insertionSort oppLE filtered

/-- The altcoin-alert loop of the hourly job (lines 62-68): for each ranked
opportunity whose symbol is not `"BTC"` while fewer than 5 alerts have been
sent, send a HIGH POTENTIAL alert and sleep. -/
def altcoinLoop (env : Env) : Tr → List Opportunity → Nat → Except (String × Tr) Tr
  | t, [], _ => Except.ok t
  | t, o :: rest, count =>
      if o.symbol ≠ "BTC" ∧ count < 5 then
        match send env t (Msg.altcoinAlert o.symbol) with
        | Except.error e => Except.error e
        | Except.ok t1 => altcoinLoop env (sleep t1 hourlyPacingDelay) rest (count + 1)
      else
        altcoinLoop env t rest count

/-- The `try` block of `hourly_analysis` (lines 26-74).  Returns the trace and
whether the run reached the `last_analysis_time["hourly"]` update, or the
exception that was raised. -/
def hourlyTry (env : Env) : Except (String × Tr) (Tr × Bool) :=
  let t := Tr.init
  if env.channel = false then Except.ok (t, false) else
  let t := call t Call.fetch
  if env.marketData = [] then
    match send env t Msg.dataUnavailable with
    | Except.error e => Except.error e
    | Except.ok t1 => Except.ok (t1, false)
  else
    let t := call t Call.john
    match env.john with
    | Except.error e => Except.error (e, t)
    | Except.ok john_results =>
      let t := call t Call.alpha
      match env.alpha with
      | Except.error e => Except.error (e, t)
      | Except.ok alpha_results =>
        let btcStep : Except (String × Tr) Tr :=
          if (env.marketData.lookup "BTC").isSome then
            if (john_results.lookup "BTC").getD [] ≠ [] ∨
                (alpha_results.lookup "BTC").getD [] ≠ [] then
              match send env t Msg.btcReport with
              | Except.error e => Except.error e
              | Except.ok t1 => Except.ok (sleep t1 hourlyPacingDelay)
            else Except.ok t
          else Except.ok t
        match btcStep with
        | Except.error e => Except.error e
        | Except.ok t2 =>
          let t2 := call t2 Call.rank
          let ranked := rank_opportunities john_results alpha_results 75
          match altcoinLoop env t2 ranked 0 with
          | Except.error e => Except.error e
          | Except.ok t3 =>
            match send env t3 Msg.marketOverview with
            | Except.error e => Except.error e
            | Except.ok t4 => Except.ok (t4, true)

/-- `hourly_analysis` (lines 22-79), including its `except` block: on an
exception, if the channel exists, send an "Analysis Error" message — a send
which may itself raise and propagate out of the job body. -/
def hourly_analysis (env : Env) (st : JobTimes) : RunResult :=
  match hourlyTry env with
  | Except.ok (t, updated) =>
      { msgs := t.msgs, calls := t.calls, sleeps := t.sleeps,
        state := if updated then setEntry st "hourly" env.now else st,
        raised := none }
  | Except.error (e, t) =>
      if env.channel then
        match send env t (Msg.analysisError e) with
        | Except.ok t2 =>
            { msgs := t2.msgs, calls := t2.calls, sleeps := t2.sleeps,
              state := st, raised := none }
        | Except.error (e2, t2) =>
            { msgs := t2.msgs, calls := t2.calls, sleeps := t2.sleeps,
              state := st, raised := some e2 }
      else
        { msgs := t.msgs, calls := t.calls, sleeps := t.sleeps,
          state := st, raised := none }

/-- The premium-alert loop of the four-hour job (lines 103-106). -/
def premiumLoop (env : Env) : Tr → List Opportunity → Except (String × Tr) Tr
  | t, [] => Except.ok t
  | t, o :: rest =>
      match send env t (Msg.premiumSignal o.symbol) with
      | Except.error e => Except.error e
      | Except.ok t1 => premiumLoop env (sleep t1 fourHourPacingDelay) rest

/-- The `try` block of `four_hour_analysis` (lines 84-108).  Note that an
empty market fetch returns silently — no message is sent (lines 92-93). -/
def fourHourTry (env : Env) : Except (String × Tr) (Tr × Bool) :=
  let t := Tr.init
  if env.channel = false then Except.ok (t, false) else
  let t := call t Call.fetch
  if env.marketData = [] then Except.ok (t, false)
  else
    let t := call t Call.john
    match env.john with
    | Except.error e => Except.error (e, t)
    | Except.ok john_results =>
      let t := call t Call.alpha
      match env.alpha with
      | Except.error e => Except.error (e, t)
      | Except.ok alpha_results =>
        let t := call t Call.rank
        let ranked := rank_opportunities john_results alpha_results 85
        match premiumLoop env t (ranked.take 3) with
        | Except.error e => Except.error e
        | Except.ok t1 => Except.ok (t1, true)

/-- `four_hour_analysis` (lines 81-111): its `except` block only prints, so no
exception ever propagates and no error message is ever sent. -/
def four_hour_analysis (env : Env) (st : JobTimes) : RunResult :=
  match fourHourTry env with
  | Except.ok (t, updated) =>
      { msgs := t.msgs, calls := t.calls, sleeps := t.sleeps,
        state := if updated then setEntry st "four_hour" env.now else st,
        raised := none }
  | Except.error (_, t) =>
      { msgs := t.msgs, calls := t.calls, sleeps := t.sleeps,
        state := st, raised := none }

/-- The volume-spike loop (lines 126-129): only alerts with
`volume_increase >= 300` are sent; no pacing sleep. -/
def volLoop (env : Env) : Tr → List VolAlert → Except (String × Tr) Tr
  | t, [] => Except.ok t
  | t, a :: rest =>
      if 300 ≤ a.volume_increase then
        match send env t (Msg.volumeSpikeAlert a) with
        | Except.error e => Except.error e
        | Except.ok t1 => volLoop env t1 rest
      else volLoop env t rest

/-- The whale-movement loop (lines 132-135): every alert is sent, unfiltered. -/
def whaleLoop (env : Env) : Tr → List Record → Except (String × Tr) Tr
  | t, [] => Except.ok t
  | t, r :: rest =>
      match send env t (Msg.whaleAlert r) with
      | Except.error e => Except.error e
      | Except.ok t1 => whaleLoop env t1 rest

/-- The `try` block of `volume_spike_monitor` (lines 116-135): no market
fetch, no ranking, no state update. -/
def volumeTry (env : Env) : Except (String × Tr) Tr :=
  let t := Tr.init
  if env.channel = false then Except.ok t else
  let t := call t Call.detectVolume
  match env.volumeAlerts with
  | Except.error e => Except.error (e, t)
  | Except.ok volume_alerts =>
    match volLoop env t volume_alerts with
    | Except.error e => Except.error e
    | Except.ok t1 =>
      let t1 := call t1 Call.detectWhale
      match env.whaleAlerts with
      | Except.error e => Except.error (e, t1)
      | Except.ok whale_alerts => whaleLoop env t1 whale_alerts

/-- `volume_spike_monitor` (lines 113-138): the `except` block only prints;
`last_analysis_time` is never touched. -/
def volume_spike_monitor (env : Env) (st : JobTimes) : RunResult :=
  match volumeTry env with
  | Except.ok t =>
      { msgs := t.msgs, calls := t.calls, sleeps := t.sleeps,
        state := st, raised := none }
  | Except.error (_, t) =>
      { msgs := t.msgs, calls := t.calls, sleeps := t.sleeps,
        state := st, raised := none }

/-- The opportunity loop of the manual command (lines 169-173): alerts are
numbered from 1 and a pacing sleep follows each send except the last possible
one (`if i < 3`). -/
def opportunityLoop (env : Env) : Tr → Nat → List Opportunity → Except (String × Tr) Tr
  | t, _, [] => Except.ok t
  | t, i, o :: rest =>
      match send env t (Msg.opportunityAlert i o.symbol) with
      | Except.error e => Except.error e
      | Except.ok t1 =>
        let t2 := if i < 3 then sleep t1 hourlyPacingDelay else t1
        opportunityLoop env t2 (i + 1) rest

/-- Python `str.upper()` applied characterwise.  `Char.toUpper` maps only
`a`-`z`, so this coincides with `str.upper()` exactly on ASCII strings;
theorems that rely on it therefore restrict their coin argument to ASCII
characters (full Unicode case mapping, e.g. `str.upper()` turning one
character into two, is out of this model's scope). -/
def pyUpper (s : String) : String := String.mk (s.data.map Char.toUpper)

/-- The general-market branch of `manual_analysis` (lines 161-173), taken
when `coin` is falsy: analyze, rank with threshold 70, send up to three
opportunity alerts. -/
def manualGeneral (env : Env) (t : Tr) : Except (String × Tr) Tr :=
  let t := call t Call.john
  match env.john with
  | Except.error e => Except.error (e, t)
  | Except.ok john_results =>
    let t := call t Call.alpha
    match env.alpha with
    | Except.error e => Except.error (e, t)
    | Except.ok alpha_results =>
      let t := call t Call.rank
      let ranked := rank_opportunities john_results alpha_results 70
      opportunityLoop env t 1 (ranked.take 3)

/-- The `try` block of `manual_analysis` (lines 143-173).  The test
`if coin:` (line 151) is Python truthiness: it takes the specific-coin branch
only when the argument is present **and** non-empty; both `None` and the
empty string fall through to the general-market branch. -/
def manualTry (env : Env) (coin : Option String) : Except (String × Tr) Tr :=
  match send env Tr.init Msg.analyzingWait with
  | Except.error e => Except.error e
  | Except.ok t =>
    let t := call t Call.fetch
    if env.marketData = [] then
      match send env t Msg.fetchError with
      | Except.error e => Except.error e
      | Except.ok t1 => Except.ok t1
    else
      match coin with
      | some c =>
        if c = "" then manualGeneral env t
        else
          let cu := pyUpper c
          if (env.marketData.lookup cu).isSome then
            let t := call t Call.deepCoin
            match env.deepCoin with
            | Except.error e => Except.error (e, t)
            | Except.ok _ =>
              match send env t (Msg.manualCoinReport cu) with
              | Except.error e => Except.error e
              | Except.ok t1 => Except.ok t1
          else
            match send env t (Msg.coinNotFound cu) with
            | Except.error e => Except.error e
            | Except.ok t1 => Except.ok t1
      | none => manualGeneral env t

/-- `manual_analysis` (lines 140-176), the `!analisis` command.  Its `except`
block sends an "Analysis failed" message unguarded, which may itself raise.
It never touches `last_analysis_time`. -/
def manual_analysis (env : Env) (coin : Option String) (st : JobTimes) : RunResult :=
  match manualTry env coin with
  | Except.ok t =>
      { msgs := t.msgs, calls := t.calls, sleeps := t.sleeps,
        state := st, raised := none }
  | Except.error (e, t) =>
      match send env t (Msg.manualError e) with
      | Except.ok t2 =>
          { msgs := t2.msgs, calls := t2.calls, sleeps := t2.sleeps,
            state := st, raised := none }
      | Except.error (e2, t2) =>
          { msgs := t2.msgs, calls := t2.calls, sleeps := t2.sleeps,
            state := st, raised := some e2 }

/-- The sort key of the `!top` command: `f"percent_change_{timeframe}"`. -/
def changeKey (timeframe : String) : String := "percent_change_" ++ timeframe

/-- `x[1].get(timeframe_key, 0)` — the percent-change value of a snapshot
entry, defaulting to 0 when the field is missing. -/
def keyVal (key : String) (x : String × Record) : Int := (x.2.lookup key).getD 0

/-- Descending order on snapshot entries by percent-change value
(`sorted(..., reverse=True)`). -/
def gainersLE (key : String) (a b : String × Record) : Prop :=
  keyVal key b ≤ keyVal key a

instance (key : String) : DecidableRel (gainersLE key) := fun a b => by
  unfold gainersLE; infer_instance

instance (key : String) : IsTotal (String × Record) (gainersLE key) where
  total a b := le_total (keyVal key b) (keyVal key a)

instance (key : String) : IsTrans (String × Record) (gainersLE key) where
  trans _ _ _ hab hbc := le_trans hbc hab

/-- The snapshot sorted descending by the timeframe's percent-change field
(lines 191-195, before the `[:10]` truncation). -/
def sortedByChange (env : Env) (timeframe : String) : List (String × Record) :=
  List.insertionSort (gainersLE (changeKey timeframe)) env.marketData

/-- The `try` block of `top_gainers` (lines 181-214). -/
def topTry (env : Env) (timeframe : String) : Except (String × Tr) Tr :=
  match send env Tr.init (Msg.fetchingTop timeframe) with
  | Except.error e => Except.error e
  | Except.ok t =>
    let t := call t Call.fetch
    if env.marketData = [] then
      match send env t Msg.fetchError with
      | Except.error e => Except.error e
      | Except.ok t1 => Except.ok t1
    else
      let sorted_coins := (sortedByChange env timeframe).take 10
      match send env t (Msg.topGainers sorted_coins) with
      | Except.error e => Except.error e
      | Except.ok t1 => Except.ok t1

/-- `top_gainers` (lines 178-217), the `!top` command.  Read-only: no ranking,
no alerts, no state change. -/
def top_gainers (env : Env) (timeframe : String) (st : JobTimes) : RunResult :=
  match topTry env timeframe with
  | Except.ok t =>
      { msgs := t.msgs, calls := t.calls, sleeps := t.sleeps,
        state := st, raised := none }
  | Except.error (e, t) =>
      match send env t (Msg.topError e) with
      | Except.ok t2 =>
          { msgs := t2.msgs, calls := t2.calls, sleeps := t2.sleeps,
            state := st, raised := none }
      | Except.error (e2, t2) =>
          { msgs := t2.msgs, calls := t2.calls, sleeps := t2.sleeps,
            state := st, raised := some e2 }

/-- The three scheduled jobs started in `on_ready`. -/
inductive Job where
  | hourly : Job
  | fourHour : Job
  | volume : Job
deriving DecidableEq

/-- The `last_analysis_time` key a job writes on success (`"hourly"` at
line 74, `"four_hour"` at line 108; the volume monitor writes none, so its
key is never present). -/
def jobKey : Job → String
  | Job.hourly => "hourly"
  | Job.fourHour => "four_hour"
  | Job.volume => "volume"

/-- One run of a scheduled job. -/
def runJob : Job → Env → JobTimes → RunResult
  | Job.hourly, env, st => hourly_analysis env st
  | Job.fourHour, env, st => four_hour_analysis env st
  | Job.volume, env, st => volume_spike_monitor env st

/-- Whether a run completes without a fatal error, i.e. reaches its
`last_analysis_time` update.  The volume monitor has no such update, so no
run of it counts as a recorded success. -/
def runSucceeds (j : Job) (env : Env) : Bool :=
  match j with
  | Job.hourly =>
      match hourlyTry env with
      | Except.ok (_, u) => u
      | Except.error _ => false
  | Job.fourHour =>
      match fourHourTry env with
      | Except.ok (_, u) => u
      | Except.error _ => false
  | Job.volume => false

/-- A run aborted by `DataUnavailable` (empty fetch) or `CollaboratorFailure`
(an analysis/detector call raising), per the spec's error taxonomy (§7). -/
def abortsRun (j : Job) (env : Env) : Prop :=
  match j with
  | Job.hourly =>
      env.marketData = [] ∨ (∃ e, env.john = Except.error e) ∨
        (∃ e, env.alpha = Except.error e)
  | Job.fourHour =>
      env.marketData = [] ∨ (∃ e, env.john = Except.error e) ∨
        (∃ e, env.alpha = Except.error e)
  | Job.volume =>
      (∃ e, env.volumeAlerts = Except.error e) ∨
        (∃ e, env.whaleAlerts = Except.error e)

/-- The `last_analysis_time` map after a sequence of job runs, starting from
the empty dict of line 19. -/
def statesAfter (runs : List (Job × Env)) : JobTimes :=
  runs.foldl (fun st r => (runJob r.1 r.2 st).state) []

/-- All timestamps recorded in the state are at most `b`. -/
def EntriesLE (st : JobTimes) (b : Nat) : Prop :=
  ∀ k v, st.lookup k = some v → v ≤ b

/-- A message counted by the spec as a human-readable error notification of a
scheduled job's abort path. -/
def isErrorNotification : Msg → Bool
  | Msg.dataUnavailable => true
  | Msg.analysisError _ => true
  | _ => false

/-- Pure description of the altcoin-alert loop: the symbols for which an alert
is sent, given the running count. -/
def selectAltcoins : List Opportunity → Nat → List String
  | [], _ => []
  | o :: rest, count =>
      if o.symbol ≠ "BTC" ∧ count < 5 then o.symbol :: selectAltcoins rest (count + 1)
      else selectAltcoins rest count

lemma send_ok {env : Env} (hs : ∀ k, env.sendFails k = false) (t : Tr) (m : Msg) :
    send env t m = Except.ok { t with msgs := t.msgs ++ [m], n := t.n + 1 } := by
  simp [send, hs]

lemma altcoinLoop_ok {env : Env} (hs : ∀ k, env.sendFails k = false)
    (l : List Opportunity) (count : Nat) (t : Tr) :
    altcoinLoop env t l count =
      Except.ok { t with
        msgs := t.msgs ++ (selectAltcoins l count).map Msg.altcoinAlert,
        sleeps := t.sleeps ++
          List.replicate (selectAltcoins l count).length hourlyPacingDelay,
        n := t.n + (selectAltcoins l count).length } := by
  induction l generalizing count t with
  | nil => simp [altcoinLoop, selectAltcoins]
  | cons o rest ih =>
      by_cases h : o.symbol ≠ "BTC" ∧ count < 5
      · rw [altcoinLoop, if_pos h, send_ok hs]
        simp only [selectAltcoins, if_pos h, ih, sleep]
        simp [Tr.mk.injEq, List.replicate_succ]
        omega
      · rw [altcoinLoop, if_neg h]
        simp only [selectAltcoins, if_neg h, ih]

lemma selectAltcoins_eq_nil (l : List Opportunity) (count : Nat) (h : 5 ≤ count) :
    selectAltcoins l count = [] := by
  induction l generalizing count with
  | nil => rfl
  | cons o rest ih =>
      rw [selectAltcoins, if_neg (by rintro ⟨-, hlt⟩; omega)]
      exact ih count h

lemma selectAltcoins_length (l : List Opportunity) (count : Nat)
    (h : 5 - count ≤ (l.filter (fun o => o.symbol ≠ "BTC")).length) :
    (selectAltcoins l count).length = 5 - count := by
  induction l generalizing count with
  | nil =>
      simp only [List.filter_nil, List.length_nil] at h
      simp only [selectAltcoins, List.length_nil]
      omega
  | cons o rest ih =>
      by_cases hc : count < 5
      · by_cases hb : o.symbol = "BTC"
        · rw [selectAltcoins, if_neg (by simp [hb])]
          apply ih
          rw [List.filter_cons_of_neg (by simp [hb])] at h
          exact h
        · rw [selectAltcoins, if_pos ⟨hb, hc⟩, List.length_cons,
            ih (count + 1) ?_]
          · omega
          · rw [List.filter_cons_of_pos (by simp [hb])] at h
            rw [List.length_cons] at h
            omega
      · rw [selectAltcoins_eq_nil _ _ (by omega)]
        simp only [List.length_nil]
        omega

lemma selectAltcoins_ne_btc (l : List Opportunity) (count : Nat) (s : String)
    (hm : s ∈ selectAltcoins l count) : s ≠ "BTC" := by
  induction l generalizing count with
  | nil => simp [selectAltcoins] at hm
  | cons o rest ih =>
      rw [selectAltcoins] at hm
      split at hm
      · rcases List.mem_cons.mp hm with h | h
        · rename_i hcond; exact h ▸ hcond.1
        · exact ih _ h
      · exact ih _ hm

lemma premiumLoop_ok {env : Env} (hs : ∀ k, env.sendFails k = false)
    (l : List Opportunity) (t : Tr) :
    premiumLoop env t l =
      Except.ok { t with
        msgs := t.msgs ++ l.map (fun o => Msg.premiumSignal o.symbol),
        sleeps := t.sleeps ++ List.replicate l.length fourHourPacingDelay,
        n := t.n + l.length } := by
  induction l generalizing t with
  | nil => simp [premiumLoop]
  | cons o rest ih =>
      rw [premiumLoop, send_ok hs]
      simp only [ih, sleep]
      simp [Tr.mk.injEq, List.replicate_succ]
      omega

lemma volLoop_ok {env : Env} (hs : ∀ k, env.sendFails k = false)
    (l : List VolAlert) (t : Tr) :
    volLoop env t l =
      Except.ok { t with
        msgs := t.msgs ++
          (l.filter (fun a => 300 ≤ a.volume_increase)).map Msg.volumeSpikeAlert,
        n := t.n + (l.filter (fun a => 300 ≤ a.volume_increase)).length } := by
  induction l generalizing t with
  | nil => simp [volLoop]
  | cons a rest ih =>
      by_cases h : (300 : Int) ≤ a.volume_increase
      · rw [volLoop, if_pos h, send_ok hs]
        simp only [ih]
        rw [List.filter_cons_of_pos (by simp [h])]
        simp [Tr.mk.injEq]
        omega
      · rw [volLoop, if_neg h]
        simp only [ih]
        rw [List.filter_cons_of_neg (by simp [h])]

lemma whaleLoop_ok {env : Env} (hs : ∀ k, env.sendFails k = false)
    (l : List Record) (t : Tr) :
    whaleLoop env t l =
      Except.ok { t with
        msgs := t.msgs ++ l.map Msg.whaleAlert,
        n := t.n + l.length } := by
  induction l generalizing t with
  | nil => simp [whaleLoop]
  | cons r rest ih =>
      rw [whaleLoop, send_ok hs]
      simp only [ih]
      simp [Tr.mk.injEq]
      omega

lemma lookup_setEntry_self (st : JobTimes) (k : String) (v : Nat) :
    (setEntry st k v).lookup k = some v := by
  induction st with
  | nil => simp [setEntry]
  | cons p rest ih =>
      rw [setEntry]
      by_cases h : p.1 = k
      · rw [if_pos h]
        simp [List.lookup_cons]
      · rw [if_neg h]
        obtain ⟨pk, pv⟩ := p
        simp only at h
        simpa [List.lookup_cons, beq_false_of_ne (Ne.symm h)] using ih

lemma lookup_setEntry_ne (st : JobTimes) (k kq : String) (v : Nat)
    (h : kq ≠ k) : (setEntry st k v).lookup kq = st.lookup kq := by
  induction st with
  | nil => simp [setEntry, List.lookup_cons, beq_false_of_ne h]
  | cons p rest ih =>
      rw [setEntry]
      obtain ⟨pk, pv⟩ := p
      by_cases hp : pk = k
      · rw [if_pos hp]
        subst hp
        simp [List.lookup_cons, beq_false_of_ne h]
      · rw [if_neg hp]
        by_cases hq : kq = pk
        · simp [List.lookup_cons, hq]
        · simpa [List.lookup_cons, beq_false_of_ne hq] using ih

/-- The state written by one run: `setEntry` of the job's key at the run time
when the run succeeds, the input state unchanged otherwise. -/
lemma runJob_state (j : Job) (env : Env) (st : JobTimes) :
    (runJob j env st).state =
      if runSucceeds j env then setEntry st (jobKey j) env.now else st := by
  cases j
  case hourly =>
      simp only [runJob, hourly_analysis, runSucceeds, jobKey]
      cases h : hourlyTry env with
      | ok p =>
          cases p with
          | mk t u => cases u <;> simp
      | error p =>
          cases p with
          | mk e t =>
              by_cases hc : env.channel
              · cases hsend : send env t (Msg.analysisError e) with
                | ok t2 => simp [hc, hsend]
                | error p2 => obtain ⟨e2, t2⟩ := p2; simp [hc, hsend]
              · simp [hc]
  case fourHour =>
      simp only [runJob, four_hour_analysis, runSucceeds, jobKey]
      cases h : fourHourTry env with
      | ok p =>
          cases p with
          | mk t u => cases u <;> simp
      | error p => cases p; simp
  case volume =>
      simp only [runJob, volume_spike_monitor, runSucceeds, jobKey]
      cases volumeTry env with
      | ok t => simp
      | error p => cases p; simp

/-- A recorded hourly success implies the fetch returned data and both
analysis collaborators returned (DataUnavailable / CollaboratorFailure aborts
never reach the `last_analysis_time` update). -/
lemma hourlyTry_success (env : Env) (t : Tr) (h : hourlyTry env = Except.ok (t, true)) :
    env.marketData ≠ [] ∧ (∃ jr, env.john = Except.ok jr) ∧
      (∃ ar, env.alpha = Except.ok ar) := by
  unfold hourlyTry at h
  simp only [] at h
  split at h
  · simp at h
  · split at h
    · split at h <;> simp at h
    · next hmd =>
        refine ⟨hmd, ?_⟩
        split at h
        · simp at h
        · next jr hj =>
            refine ⟨⟨jr, hj⟩, ?_⟩
            split at h
            · simp at h
            · next ar ha => exact ⟨ar, ha⟩

/-- Same for the four-hour job. -/
lemma fourHourTry_success (env : Env) (t : Tr)
    (h : fourHourTry env = Except.ok (t, true)) :
    env.marketData ≠ [] ∧ (∃ jr, env.john = Except.ok jr) ∧
      (∃ ar, env.alpha = Except.ok ar) := by
  unfold fourHourTry at h
  simp only [] at h
  split at h
  · simp at h
  · split at h
    · simp at h
    · next hmd =>
        refine ⟨hmd, ?_⟩
        split at h
        · simp at h
        · next jr hj =>
            refine ⟨⟨jr, hj⟩, ?_⟩
            split at h
            · simp at h
            · next ar ha => exact ⟨ar, ha⟩

/-- An aborting run (DataUnavailable or CollaboratorFailure) never counts as
a success. -/
lemma runSucceeds_false_of_aborts (j : Job) (env : Env) (h : abortsRun j env) :
    runSucceeds j env = false := by
  cases j
  case volume => rfl
  case hourly =>
      simp only [runSucceeds]
      cases htry : hourlyTry env with
      | error p => rfl
      | ok p =>
          obtain ⟨t, u⟩ := p
          cases u
          · rfl
          · exfalso
            obtain ⟨hmd, ⟨jr, hj⟩, ⟨ar, ha⟩⟩ := hourlyTry_success env t htry
            simp only [abortsRun] at h
            rcases h with h | ⟨e, h⟩ | ⟨e, h⟩
            · exact hmd h
            · rw [h] at hj; cases hj
            · rw [h] at ha; cases ha
  case fourHour =>
      simp only [runSucceeds]
      cases htry : fourHourTry env with
      | error p => rfl
      | ok p =>
          obtain ⟨t, u⟩ := p
          cases u
          · rfl
          · exfalso
            obtain ⟨hmd, ⟨jr, hj⟩, ⟨ar, ha⟩⟩ := fourHourTry_success env t htry
            simp only [abortsRun] at h
            rcases h with h | ⟨e, h⟩ | ⟨e, h⟩
            · exact hmd h
            · rw [h] at hj; cases hj
            · rw [h] at ha; cases ha

/-- A run that aborts leaves the whole `last_analysis_time` map unchanged. -/
lemma runJob_state_of_aborts (j : Job) (env : Env) (st : JobTimes)
    (h : abortsRun j env) : (runJob j env st).state = st := by
  rw [runJob_state, runSucceeds_false_of_aborts j env h]
  simp

lemma jobKey_inj (j1 j2 : Job) (h : jobKey j1 = jobKey j2) : j1 = j2 := by
  cases j1 <;> cases j2 <;> simp_all [jobKey]

lemma entriesLE_setEntry {st : JobTimes} {b : Nat} (h : EntriesLE st b)
    (k : String) {v : Nat} (hv : v ≤ b) : EntriesLE (setEntry st k v) b := by
  intro kq vq hq
  by_cases hk : kq = k
  · subst hk
    rw [lookup_setEntry_self] at hq
    cases hq
    exact hv
  · rw [lookup_setEntry_ne _ _ _ _ hk] at hq
    exact h kq vq hq

lemma runJob_entriesLE (j : Job) (env : Env) (st : JobTimes) {b : Nat}
    (h : EntriesLE st b) (hb : env.now ≤ b) :
    EntriesLE (runJob j env st).state b := by
  rw [runJob_state]
  split
  · exact entriesLE_setEntry h _ hb
  · exact h

/-- One run never decreases an existing timestamp, provided all existing
entries are at most the run's own time. -/
lemma runJob_lookup_mono (j : Job) (env : Env) (st : JobTimes) (k : String)
    (v : Nat) (hv : st.lookup k = some v) (hb : EntriesLE st env.now) :
    ∃ w, (runJob j env st).state.lookup k = some w ∧ v ≤ w := by
  rw [runJob_state]
  split
  · by_cases hk : k = jobKey j
    · subst hk
      exact ⟨env.now, lookup_setEntry_self _ _ _, hb _ _ hv⟩
    · refine ⟨v, ?_, le_refl v⟩
      rw [lookup_setEntry_ne _ _ _ _ hk]
      exact hv
  · exact ⟨v, hv, le_refl v⟩

lemma statesAfter_append (pre : List (Job × Env)) (r : Job × Env) :
    statesAfter (pre ++ [r]) = (runJob r.1 r.2 (statesAfter pre)).state := by
  simp [statesAfter, List.foldl_append]

lemma foldl_entriesLE (runs : List (Job × Env)) (st : JobTimes) (b : Nat)
    (h : EntriesLE st b) (hall : ∀ r ∈ runs, r.2.now ≤ b) :
    EntriesLE (runs.foldl (fun s r => (runJob r.1 r.2 s).state) st) b := by
  induction runs generalizing st with
  | nil => exact h
  | cons r rest ih =>
      simp only [List.foldl_cons]
      exact ih _ (runJob_entriesLE _ _ _ h (hall r (by simp)))
        (fun q hq => hall q (by simp [hq]))

lemma statesAfter_entriesLE (pre : List (Job × Env)) (b : Nat)
    (hall : ∀ r ∈ pre, r.2.now ≤ b) : EntriesLE (statesAfter pre) b :=
  foldl_entriesLE pre [] b (fun k v hv => by simp [List.lookup] at hv) hall

/-- If a job never succeeds along a sequence of runs, its key stays absent. -/
lemma foldl_key_none (runs : List (Job × Env)) (st : JobTimes) (j : Job)
    (hst : st.lookup (jobKey j) = none)
    (h : ∀ r ∈ runs, r.1 = j → runSucceeds r.1 r.2 = false) :
    (runs.foldl (fun s r => (runJob r.1 r.2 s).state) st).lookup (jobKey j)
      = none := by
  induction runs generalizing st with
  | nil => exact hst
  | cons r rest ih =>
      simp only [List.foldl_cons]
      apply ih
      · rw [runJob_state]
        split
        · rename_i hsuc
          have hne : r.1 ≠ j := by
            intro he
            rw [h r (by simp) he] at hsuc
            cases hsuc
          rw [lookup_setEntry_ne]
          · exact hst
          · exact fun hk => hne (jobKey_inj _ _ hk).symm
        · exact hst
      · exact fun q hq hqj => h q (by simp [hq]) hqj

/-- Full computation of a successful hourly run with a BTC report: the message
sequence is exactly one BTC report, then the selected altcoin alerts, then one
market-overview summary; the state records the run time under `"hourly"`. -/
lemma hourly_analysis_run {env : Env} (st : JobTimes) (jr ar : AnalysisResults)
    (hch : env.channel = true) (hs : ∀ k, env.sendFails k = false)
    (hmd : env.marketData ≠ []) (hj : env.john = Except.ok jr)
    (ha : env.alpha = Except.ok ar)
    (hbtc : (env.marketData.lookup "BTC").isSome = true)
    (hres : (jr.lookup "BTC").getD [] ≠ [] ∨ (ar.lookup "BTC").getD [] ≠ []) :
    hourly_analysis env st =
      { msgs := Msg.btcReport ::
          (selectAltcoins (rank_opportunities jr ar 75) 0).map Msg.altcoinAlert
          ++ [Msg.marketOverview],
        calls := [Call.fetch, Call.john, Call.alpha, Call.rank],
        sleeps := hourlyPacingDelay ::
          List.replicate (selectAltcoins (rank_opportunities jr ar 75) 0).length
            hourlyPacingDelay,
        state := setEntry st "hourly" env.now,
        raised := none } := by
  have htry : hourlyTry env =
      Except.ok
        (({ msgs := Msg.btcReport ::
              (selectAltcoins (rank_opportunities jr ar 75) 0).map Msg.altcoinAlert
              ++ [Msg.marketOverview],
            calls := [Call.fetch, Call.john, Call.alpha, Call.rank],
            sleeps := hourlyPacingDelay ::
              List.replicate (selectAltcoins (rank_opportunities jr ar 75) 0).length
                hourlyPacingDelay,
            n := (selectAltcoins (rank_opportunities jr ar 75) 0).length + 2 } : Tr),
          true) := by
    unfold hourlyTry
    rw [hch]
    simp only [Bool.true_eq_false, if_false, if_neg hmd, hj, ha, hbtc, if_pos hres,
      if_true, send_ok hs, altcoinLoop_ok hs, call, sleep, Tr.init]
    simp [Tr.mk.injEq]
    omega
  unfold hourly_analysis
  rw [htry]
  simp


/-- Hourly run with an empty market fetch: exactly one "data unavailable"
message, a single fetch call, no analysis, no state change. -/
lemma hourly_analysis_data_unavailable {env : Env} (st : JobTimes)
    (hch : env.channel = true) (hs : ∀ k, env.sendFails k = false)
    (hmd : env.marketData = []) :
    hourly_analysis env st =
      { msgs := [Msg.dataUnavailable],
        calls := [Call.fetch],
        sleeps := [],
        state := st,
        raised := none } := by
  have htry : hourlyTry env =
      Except.ok
        (({ msgs := [Msg.dataUnavailable],
            calls := [Call.fetch],
            sleeps := [],
            n := 1 } : Tr),
          false) := by
    unfold hourlyTry
    rw [hch]
    simp only [Bool.true_eq_false, if_false, if_pos hmd, send_ok hs, call, Tr.init]
    simp
  unfold hourly_analysis
  rw [htry]
  simp

/-- Hourly run where `john_analysis` raises: the except block sends the single
"Analysis Error" message; the state is unchanged and nothing propagates. -/
lemma hourly_analysis_john_err {env : Env} (st : JobTimes) (e : String)
    (hch : env.channel = true) (hs : ∀ k, env.sendFails k = false)
    (hmd : env.marketData ≠ []) (hj : env.john = Except.error e) :
    hourly_analysis env st =
      { msgs := [Msg.analysisError e],
        calls := [Call.fetch, Call.john],
        sleeps := [],
        state := st,
        raised := none } := by
  have htry : hourlyTry env =
      Except.error
        (e,
          ({ msgs := [],
             calls := [Call.fetch, Call.john],
             sleeps := [],
             n := 0 } : Tr)) := by
    unfold hourlyTry
    rw [hch]
    simp only [Bool.true_eq_false, if_false, if_neg hmd, hj, call, Tr.init]
    simp
  unfold hourly_analysis
  rw [htry]
  simp only [hch, if_true, send_ok hs]
  simp

/-- Hourly run where `alpha_analysis` raises (john succeeded). -/
lemma hourly_analysis_alpha_err {env : Env} (st : JobTimes)
    (jr : AnalysisResults) (e : String)
    (hch : env.channel = true) (hs : ∀ k, env.sendFails k = false)
    (hmd : env.marketData ≠ []) (hj : env.john = Except.ok jr)
    (ha : env.alpha = Except.error e) :
    hourly_analysis env st =
      { msgs := [Msg.analysisError e],
        calls := [Call.fetch, Call.john, Call.alpha],
        sleeps := [],
        state := st,
        raised := none } := by
  have htry : hourlyTry env =
      Except.error
        (e,
          ({ msgs := [],
             calls := [Call.fetch, Call.john, Call.alpha],
             sleeps := [],
             n := 0 } : Tr)) := by
    unfold hourlyTry
    rw [hch]
    simp only [Bool.true_eq_false, if_false, if_neg hmd, hj, ha, call, Tr.init]
    simp
  unfold hourly_analysis
  rw [htry]
  simp only [hch, if_true, send_ok hs]
  simp

/-- Full computation of a successful four-hour run: exactly the top three
ranked (threshold 85) opportunities are sent as premium signals, each followed
by the four-hour pacing sleep. -/
lemma four_hour_analysis_run {env : Env} (st : JobTimes)
    (jr ar : AnalysisResults)
    (hch : env.channel = true) (hs : ∀ k, env.sendFails k = false)
    (hmd : env.marketData ≠ []) (hj : env.john = Except.ok jr)
    (ha : env.alpha = Except.ok ar) :
    four_hour_analysis env st =
      { msgs := ((rank_opportunities jr ar 85).take 3).map
          (fun o => Msg.premiumSignal o.symbol),
        calls := [Call.fetch, Call.john, Call.alpha, Call.rank],
        sleeps := List.replicate ((rank_opportunities jr ar 85).take 3).length
          fourHourPacingDelay,
        state := setEntry st "four_hour" env.now,
        raised := none } := by
  have htry : fourHourTry env =
      Except.ok
        (({ msgs := ((rank_opportunities jr ar 85).take 3).map
              (fun o => Msg.premiumSignal o.symbol),
            calls := [Call.fetch, Call.john, Call.alpha, Call.rank],
            sleeps := List.replicate ((rank_opportunities jr ar 85).take 3).length
              fourHourPacingDelay,
            n := ((rank_opportunities jr ar 85).take 3).length } : Tr),
          true) := by
    unfold fourHourTry
    rw [hch]
    simp only [Bool.true_eq_false, if_false, if_neg hmd, hj, ha,
      premiumLoop_ok hs, call, Tr.init]
    simp
  unfold four_hour_analysis
  rw [htry]
  simp

/-- Four-hour run with an empty market fetch: it aborts silently — no message
at all is sent (lines 92-93). -/
lemma four_hour_analysis_data_unavailable {env : Env} (st : JobTimes)
    (hch : env.channel = true) (hmd : env.marketData = []) :
    four_hour_analysis env st =
      { msgs := [],
        calls := [Call.fetch],
        sleeps := [],
        state := st,
        raised := none } := by
  have htry : fourHourTry env =
      Except.ok
        (({ msgs := [],
            calls := [Call.fetch],
            sleeps := [],
            n := 0 } : Tr),
          false) := by
    unfold fourHourTry
    rw [hch]
    simp only [Bool.true_eq_false, if_false, if_pos hmd, call, Tr.init]
    simp
  unfold four_hour_analysis
  rw [htry]
  simp

/-- Four-hour run where `john_analysis` raises: caught, only printed — no
message is sent and nothing propagates. -/
lemma four_hour_analysis_john_err {env : Env} (st : JobTimes) (e : String)
    (hch : env.channel = true) (hmd : env.marketData ≠ [])
    (hj : env.john = Except.error e) :
    four_hour_analysis env st =
      { msgs := [],
        calls := [Call.fetch, Call.john],
        sleeps := [],
        state := st,
        raised := none } := by
  have htry : fourHourTry env =
      Except.error
        (e,
          ({ msgs := [],
             calls := [Call.fetch, Call.john],
             sleeps := [],
             n := 0 } : Tr)) := by
    unfold fourHourTry
    rw [hch]
    simp only [Bool.true_eq_false, if_false, if_neg hmd, hj, call, Tr.init]
    simp
  unfold four_hour_analysis
  rw [htry]

/-- Four-hour run where `alpha_analysis` raises (john succeeded). -/
lemma four_hour_analysis_alpha_err {env : Env} (st : JobTimes)
    (jr : AnalysisResults) (e : String)
    (hch : env.channel = true) (hmd : env.marketData ≠ [])
    (hj : env.john = Except.ok jr) (ha : env.alpha = Except.error e) :
    four_hour_analysis env st =
      { msgs := [],
        calls := [Call.fetch, Call.john, Call.alpha],
        sleeps := [],
        state := st,
        raised := none } := by
  have htry : fourHourTry env =
      Except.error
        (e,
          ({ msgs := [],
             calls := [Call.fetch, Call.john, Call.alpha],
             sleeps := [],
             n := 0 } : Tr)) := by
    unfold fourHourTry
    rw [hch]
    simp only [Bool.true_eq_false, if_false, if_neg hmd, hj, ha, call, Tr.init]
    simp
  unfold four_hour_analysis
  rw [htry]

/-- Full computation of a successful volume-monitor run: the volume alerts
meeting the 300% threshold, in order, then every whale alert unfiltered; no
fetch, no ranking, no state change, no sleeps. -/
lemma volume_monitor_run {env : Env} (st : JobTimes)
    (vas : List VolAlert) (was : List Record)
    (hch : env.channel = true) (hs : ∀ k, env.sendFails k = false)
    (hv : env.volumeAlerts = Except.ok vas)
    (hw : env.whaleAlerts = Except.ok was) :
    volume_spike_monitor env st =
      { msgs := (vas.filter (fun a => 300 ≤ a.volume_increase)).map
          Msg.volumeSpikeAlert ++ was.map Msg.whaleAlert,
        calls := [Call.detectVolume, Call.detectWhale],
        sleeps := [],
        state := st,
        raised := none } := by
  have htry : volumeTry env =
      Except.ok
        ({ msgs := (vas.filter (fun a => 300 ≤ a.volume_increase)).map
             Msg.volumeSpikeAlert ++ was.map Msg.whaleAlert,
           calls := [Call.detectVolume, Call.detectWhale],
           sleeps := [],
           n := (vas.filter (fun a => 300 ≤ a.volume_increase)).length
             + was.length } : Tr) := by
    unfold volumeTry
    rw [hch]
    simp only [Bool.true_eq_false, if_false, hv, hw, volLoop_ok hs,
      whaleLoop_ok hs, call, Tr.init]
    simp [Tr.mk.injEq]
  unfold volume_spike_monitor
  rw [htry]

/-- Volume-monitor run where the volume-spike detector raises: nothing is
sent, nothing propagates. -/
lemma volume_monitor_vol_err {env : Env} (st : JobTimes) (e : String)
    (hch : env.channel = true) (hv : env.volumeAlerts = Except.error e) :
    volume_spike_monitor env st =
      { msgs := [],
        calls := [Call.detectVolume],
        sleeps := [],
        state := st,
        raised := none } := by
  have htry : volumeTry env =
      Except.error
        (e,
          ({ msgs := [],
             calls := [Call.detectVolume],
             sleeps := [],
             n := 0 } : Tr)) := by
    unfold volumeTry
    rw [hch]
    simp only [Bool.true_eq_false, if_false, hv, call, Tr.init]
    simp
  unfold volume_spike_monitor
  rw [htry]

/-- Volume-monitor run where the whale detector raises: the filtered volume
alerts were already sent, no error message follows, nothing propagates. -/
lemma volume_monitor_whale_err {env : Env} (st : JobTimes)
    (vas : List VolAlert) (e : String)
    (hch : env.channel = true) (hs : ∀ k, env.sendFails k = false)
    (hv : env.volumeAlerts = Except.ok vas)
    (hw : env.whaleAlerts = Except.error e) :
    volume_spike_monitor env st =
      { msgs := (vas.filter (fun a => 300 ≤ a.volume_increase)).map
          Msg.volumeSpikeAlert,
        calls := [Call.detectVolume, Call.detectWhale],
        sleeps := [],
        state := st,
        raised := none } := by
  have htry : volumeTry env =
      Except.error
        (e,
          ({ msgs := (vas.filter (fun a => 300 ≤ a.volume_increase)).map
               Msg.volumeSpikeAlert,
             calls := [Call.detectVolume, Call.detectWhale],
             sleeps := [],
             n := (vas.filter (fun a => 300 ≤ a.volume_increase)).length } : Tr)) := by
    unfold volumeTry
    rw [hch]
    simp only [Bool.true_eq_false, if_false, hv, hw, volLoop_ok hs, call, Tr.init]
    simp
  unfold volume_spike_monitor
  rw [htry]

/-- Manual analysis of an unknown coin: exactly the wait message and one
"Coin not found" message naming the upper-cased coin; only the fetch is
called — no analysis, no ranking, no alerts, no state change. -/
lemma manual_analysis_not_found {env : Env} (st : JobTimes) (c : String)
    (hs : ∀ k, env.sendFails k = false) (hmd : env.marketData ≠ [])
    (hcne : c ≠ "")
    (hc : env.marketData.lookup (pyUpper c) = none) :
    manual_analysis env (some c) st =
      { msgs := [Msg.analyzingWait, Msg.coinNotFound (pyUpper c)],
        calls := [Call.fetch],
        sleeps := [],
        state := st,
        raised := none } := by
  have htry : manualTry env (some c) =
      Except.ok
        ({ msgs := [Msg.analyzingWait, Msg.coinNotFound (pyUpper c)],
           calls := [Call.fetch],
           sleeps := [],
           n := 2 } : Tr) := by
    unfold manualTry
    simp only [send_ok hs, if_neg hmd, if_neg hcne, hc, call, Tr.init]
    simp
  unfold manual_analysis
  rw [htry]

/-- Full computation of a successful `!top` run: the status message followed
by the embed holding the first ten snapshot entries sorted descending by the
timeframe's percent-change value; read-only, no ranking, no alerts. -/
lemma top_gainers_run {env : Env} (st : JobTimes) (tf : String)
    (hs : ∀ k, env.sendFails k = false) (hmd : env.marketData ≠ []) :
    top_gainers env tf st =
      { msgs := [Msg.fetchingTop tf,
          Msg.topGainers ((sortedByChange env tf).take 10)],
        calls := [Call.fetch],
        sleeps := [],
        state := st,
        raised := none } := by
  have htry : topTry env tf =
      Except.ok
        ({ msgs := [Msg.fetchingTop tf,
             Msg.topGainers ((sortedByChange env tf).take 10)],
           calls := [Call.fetch],
           sleeps := [],
           n := 2 } : Tr) := by
    unfold topTry
    simp only [send_ok hs, if_neg hmd, call, Tr.init]
    simp
  unfold top_gainers
  rw [htry]

/-- Claim C5: for every run of the hourly job in which the market-data fetch
returns an empty result, the job sends exactly one "data unavailable" message,
performs no analysis calls and no other dispatches, and leaves every job-state
entry (including its last-success timestamp) unchanged. -/
theorem c5_hourly_empty_fetch (env : Env) (st : JobTimes)
    (hch : env.channel = true) (hs : ∀ k, env.sendFails k = false)
    (hmd : env.marketData = []) :
    hourly_analysis env st =
      { msgs := [Msg.dataUnavailable],
        calls := [Call.fetch],
        sleeps := [],
        state := st,
        raised := none } :=
  hourly_analysis_data_unavailable st hch hs hmd

/-- A run environment with an empty market fetch and everything else benign. -/
def envEmptyFetch : Env :=
  { channel := true, marketData := [],
    john := Except.ok [], alpha := Except.ok [],
    volumeAlerts := Except.ok [], whaleAlerts := Except.ok [],
    deepCoin := Except.ok [], sendFails := fun _ => false, now := 5 }

theorem c5_witness :
    hourly_analysis envEmptyFetch [("four_hour", 3)] =
      { msgs := [Msg.dataUnavailable],
        calls := [Call.fetch],
        sleeps := [],
        state := [("four_hour", 3)],
        raised := none } :=
  c5_hourly_empty_fetch envEmptyFetch [("four_hour", 3)] rfl (fun _ => rfl) rfl

/-- Claim C6 (spec-modelled ranker): for every pair of analysis result maps
and every threshold, every returned opportunity has combined score at least
the threshold, and the output is sorted by score descending with ties broken
by symbol name ascending.  (The function is pure, so the inputs are never
mutated by construction.) -/
theorem c6_rank_threshold_sorted (john_results alpha_results : AnalysisResults)
    (min_score : Int) :
    (∀ o ∈ rank_opportunities john_results alpha_results min_score,
      min_score ≤ o.score)
    ∧ List.Sorted oppLE (rank_opportunities john_results alpha_results min_score) := by
  constructor
  · intro o ho
    unfold rank_opportunities at ho
    have hm := (List.perm_insertionSort oppLE _).mem_iff.mp ho
    have hp := List.of_mem_filter hm
    exact of_decide_eq_true hp
  · exact List.sorted_insertionSort oppLE _

def jrC6 : AnalysisResults :=
  [("BTC", [("score", 90)]), ("ETH", [("score", 70)]), ("SOL", [("score", 80)])]

def arC6 : AnalysisResults :=
  [("ETH", [("score", 95)]), ("ADA", [("score", 60)])]

theorem c6_witness :
    (∀ o ∈ rank_opportunities jrC6 arC6 75, (75 : Int) ≤ o.score)
    ∧ List.Sorted oppLE (rank_opportunities jrC6 arC6 75) :=
  c6_rank_threshold_sorted jrC6 arC6 75

/-- Claim C7: every successful four-hour run ranks with threshold 85,
dispatches at most the top 3 ranked opportunities as premium alerts, and its
pacing delay is strictly longer than the hourly job's. -/
theorem c7_four_hour_premium (env : Env) (st : JobTimes)
    (jr ar : AnalysisResults)
    (hch : env.channel = true) (hs : ∀ k, env.sendFails k = false)
    (hmd : env.marketData ≠ []) (hj : env.john = Except.ok jr)
    (ha : env.alpha = Except.ok ar) :
    (four_hour_analysis env st).msgs =
        ((rank_opportunities jr ar 85).take 3).map
          (fun o => Msg.premiumSignal o.symbol)
    ∧ (four_hour_analysis env st).msgs.length ≤ 3
    ∧ (four_hour_analysis env st).sleeps =
        List.replicate (four_hour_analysis env st).msgs.length fourHourPacingDelay
    ∧ hourlyPacingDelay < fourHourPacingDelay := by
  rw [four_hour_analysis_run st jr ar hch hs hmd hj ha]
  refine ⟨rfl, ?_, ?_, by decide⟩
  · simp only [List.length_map, List.length_take]
    omega
  · simp

def envC7 : Env :=
  { channel := true, marketData := [("BTC", [("price", 1)])],
    john := Except.ok [("BTC", [("score", 99)]), ("ETH", [("score", 90)]),
      ("SOL", [("score", 88)]), ("ADA", [("score", 86)])],
    alpha := Except.ok [],
    volumeAlerts := Except.ok [], whaleAlerts := Except.ok [],
    deepCoin := Except.ok [], sendFails := fun _ => false, now := 7 }

theorem c7_witness :
    ((four_hour_analysis envC7 []).msgs =
        ((rank_opportunities
            [("BTC", [("score", 99)]), ("ETH", [("score", 90)]),
              ("SOL", [("score", 88)]), ("ADA", [("score", 86)])] [] 85).take 3).map
          (fun o => Msg.premiumSignal o.symbol))
    ∧ (four_hour_analysis envC7 []).msgs.length ≤ 3
    ∧ hourlyPacingDelay < fourHourPacingDelay := by
  have h := c7_four_hour_premium envC7 []
    [("BTC", [("score", 99)]), ("ETH", [("score", 90)]),
      ("SOL", [("score", 88)]), ("ADA", [("score", 86)])] []
    rfl (fun _ => rfl) (by decide) rfl rfl
  exact ⟨h.1, h.2.1, h.2.2.2⟩

/-- Claim C9: in every volume-monitor run whose detectors return, a
volume-spike alert is dispatched exactly for the alerts with at least a 300%
volume increase, every whale alert is dispatched unfiltered, and the run
performs no market-snapshot fetch and no opportunity ranking. -/
theorem c9_volume_monitor (env : Env) (st : JobTimes) (vas : List VolAlert)
    (was : List Record)
    (hch : env.channel = true) (hs : ∀ k, env.sendFails k = false)
    (hv : env.volumeAlerts = Except.ok vas)
    (hw : env.whaleAlerts = Except.ok was) :
    (volume_spike_monitor env st).msgs =
        (vas.filter (fun a => 300 ≤ a.volume_increase)).map Msg.volumeSpikeAlert
          ++ was.map Msg.whaleAlert
    ∧ Call.fetch ∉ (volume_spike_monitor env st).calls
    ∧ Call.rank ∉ (volume_spike_monitor env st).calls := by
  rw [volume_monitor_run st vas was hch hs hv hw]
  refine ⟨rfl, ?_, ?_⟩
  · show Call.fetch ∉ [Call.detectVolume, Call.detectWhale]
    decide
  · show Call.rank ∉ [Call.detectVolume, Call.detectWhale]
    decide

def envC9 : Env :=
  { channel := true, marketData := [],
    john := Except.ok [], alpha := Except.ok [],
    volumeAlerts := Except.ok
      [⟨"DOGE", 450⟩, ⟨"SHIB", 120⟩, ⟨"PEPE", 300⟩],
    whaleAlerts := Except.ok [[("amount", 1000)]],
    deepCoin := Except.ok [], sendFails := fun _ => false, now := 9 }

theorem c9_witness :
    (volume_spike_monitor envC9 []).msgs =
        ([⟨"DOGE", (450 : Int)⟩, ⟨"SHIB", 120⟩, ⟨"PEPE", 300⟩].filter
            (fun a => 300 ≤ a.volume_increase)).map Msg.volumeSpikeAlert
          ++ [[("amount", (1000 : Int))]].map Msg.whaleAlert
    ∧ Call.fetch ∉ (volume_spike_monitor envC9 []).calls
    ∧ Call.rank ∉ (volume_spike_monitor envC9 []).calls :=
  c9_volume_monitor envC9 [] [⟨"DOGE", 450⟩, ⟨"SHIB", 120⟩, ⟨"PEPE", 300⟩]
    [[("amount", 1000)]] rfl (fun _ => rfl) rfl rfl

def envC10 : Env :=
  { channel := true, marketData := [("BTC", [("price", 1)])],
    john := Except.ok [], alpha := Except.ok [],
    volumeAlerts := Except.ok [], whaleAlerts := Except.ok [],
    deepCoin := Except.ok [], sendFails := fun _ => false, now := 11 }

/-- Claim C10 (counterexample): the empty string is a coin argument whose
upper-cased form is not a key of this non-empty snapshot, yet the command —
because `if coin:` (line 151) is falsy for `""` — takes the general-market
branch: it calls both analysis collaborators and the ranker and sends no
"Coin not found" message, refuting the claim at that input. -/
theorem c10_counterexample :
    envC10.marketData ≠ []
    ∧ envC10.marketData.lookup (pyUpper "") = none
    ∧ manual_analysis envC10 (some "") [] =
        { msgs := [Msg.analyzingWait],
          calls := [Call.fetch, Call.john, Call.alpha, Call.rank],
          sleeps := [],
          state := [],
          raised := none } :=
  ⟨by decide, rfl, rfl⟩

/-- Claim C10 (amended): for every non-empty market snapshot and every
non-empty ASCII coin argument whose upper-cased form is not a key of the
snapshot, the manual analysis command sends exactly one "Coin not found"
message naming that coin, and performs no analysis call, no opportunity
ranking, no alert dispatch, and no job-state change.  (The only other message
is the initial "Analyzing..." wait notice.  Non-empty is forced by the
counterexample: Python's `if coin:` sends `""` down the general-market
branch.  The ASCII bound is the domain on which the charwise `pyUpper`
coincides exactly with Python's `str.upper()`.) -/
theorem c10_manual_unknown_coin (env : Env) (st : JobTimes) (c : String)
    (hs : ∀ k, env.sendFails k = false) (hmd : env.marketData ≠ [])
    (hcne : c ≠ "") (hascii : ∀ ch ∈ c.data, ch.toNat < 128)
    (hc : env.marketData.lookup (pyUpper c) = none) :
    manual_analysis env (some c) st =
      { msgs := [Msg.analyzingWait, Msg.coinNotFound (pyUpper c)],
        calls := [Call.fetch],
        sleeps := [],
        state := st,
        raised := none } :=
  manual_analysis_not_found st c hs hmd hcne hc

theorem c10_witness :
    manual_analysis envC10 (some "doge") [("hourly", 4)] =
      { msgs := [Msg.analyzingWait, Msg.coinNotFound "DOGE"],
        calls := [Call.fetch],
        sleeps := [],
        state := [("hourly", 4)],
        raised := none } := by
  have h := c10_manual_unknown_coin envC10 [("hourly", 4)] "doge"
    (fun _ => rfl) (by decide) (by decide) (by decide) (by decide)
  rw [h]
  decide

/-- Claim C8: for every non-empty snapshot and timeframe, the top command
sends the status notice and one embed holding the at-most-10 snapshot entries
with the highest percent-change value for that timeframe, in descending
order; it is a pure read (state unchanged) and involves no opportunity
ranking and no alert dispatch. -/
theorem c8_top_gainers (env : Env) (st : JobTimes) (tf : String)
    (hs : ∀ k, env.sendFails k = false) (hmd : env.marketData ≠ []) :
    (top_gainers env tf st).msgs =
        [Msg.fetchingTop tf, Msg.topGainers ((sortedByChange env tf).take 10)]
    ∧ List.Sorted (gainersLE (changeKey tf)) (sortedByChange env tf)
    ∧ (sortedByChange env tf).Perm env.marketData
    ∧ ((sortedByChange env tf).take 10).length = min 10 env.marketData.length
    ∧ (∀ x ∈ (sortedByChange env tf).take 10,
        ∀ y ∈ (sortedByChange env tf).drop 10,
          keyVal (changeKey tf) y ≤ keyVal (changeKey tf) x)
    ∧ Call.rank ∉ (top_gainers env tf st).calls
    ∧ (top_gainers env tf st).state = st := by
  rw [top_gainers_run st tf hs hmd]
  refine ⟨rfl, List.sorted_insertionSort _ _, List.perm_insertionSort _ _,
    ?_, ?_, ?_, rfl⟩
  · rw [List.length_take, sortedByChange, List.length_insertionSort]
  · have hsorted : List.Sorted (gainersLE (changeKey tf)) (sortedByChange env tf) :=
      List.sorted_insertionSort _ _
    rw [← List.take_append_drop 10 (sortedByChange env tf)] at hsorted
    have hcross := (List.pairwise_append.mp hsorted).2.2
    intro x hx y hy
    exact hcross x hx y hy
  · show Call.rank ∉ [Call.fetch]
    decide

def envC8 : Env :=
  { channel := true,
    marketData := [("BTC", [("percent_change_24h", 3)]),
      ("ETH", [("percent_change_24h", 7)]),
      ("SOL", [("percent_change_24h", 5)])],
    john := Except.ok [], alpha := Except.ok [],
    volumeAlerts := Except.ok [], whaleAlerts := Except.ok [],
    deepCoin := Except.ok [], sendFails := fun _ => false, now := 13 }

theorem c8_witness :
    (top_gainers envC8 "24h" []).msgs =
        [Msg.fetchingTop "24h",
          Msg.topGainers ((sortedByChange envC8 "24h").take 10)]
    ∧ ((sortedByChange envC8 "24h").take 10).length
        = min 10 envC8.marketData.length
    ∧ Call.rank ∉ (top_gainers envC8 "24h" []).calls := by
  have h := c8_top_gainers envC8 [] "24h" (fun _ => rfl) (by decide)
  exact ⟨h.1, h.2.2.2.1, h.2.2.2.2.2.1⟩

/-- Claim C1: for every hourly run whose snapshot contains BTC with at least
one analysis result and whose ranking (threshold 75) yields at least six
non-BTC opportunities, the job sends exactly one dedicated BTC report first,
then exactly five altcoin alerts none of which is for BTC, then exactly one
market-overview summary, in that order. -/
theorem c1_hourly_report_order (env : Env) (st : JobTimes)
    (jr ar : AnalysisResults)
    (hch : env.channel = true) (hs : ∀ k, env.sendFails k = false)
    (hmd : env.marketData ≠ []) (hj : env.john = Except.ok jr)
    (ha : env.alpha = Except.ok ar)
    (hbtc : (env.marketData.lookup "BTC").isSome = true)
    (hres : (jr.lookup "BTC").getD [] ≠ [] ∨ (ar.lookup "BTC").getD [] ≠ [])
    (h6 : 6 ≤ ((rank_opportunities jr ar 75).filter
      (fun o => o.symbol ≠ "BTC")).length) :
    (hourly_analysis env st).msgs =
        Msg.btcReport ::
          (selectAltcoins (rank_opportunities jr ar 75) 0).map Msg.altcoinAlert
          ++ [Msg.marketOverview]
    ∧ (selectAltcoins (rank_opportunities jr ar 75) 0).length = 5
    ∧ (∀ s ∈ selectAltcoins (rank_opportunities jr ar 75) 0, s ≠ "BTC") := by
  rw [hourly_analysis_run st jr ar hch hs hmd hj ha hbtc hres]
  refine ⟨rfl, ?_, fun s hsm => selectAltcoins_ne_btc _ _ _ hsm⟩
  have hlen := selectAltcoins_length (rank_opportunities jr ar 75) 0 (by omega)
  simpa using hlen

def jrC1 : AnalysisResults :=
  [("BTC", [("score", 90)]), ("AAA", [("score", 80)]), ("BBB", [("score", 81)]),
    ("CCC", [("score", 82)]), ("DDD", [("score", 83)]), ("EEE", [("score", 84)]),
    ("FFF", [("score", 85)])]

def envC1 : Env :=
  { channel := true, marketData := [("BTC", [("price", 1)])],
    john := Except.ok jrC1, alpha := Except.ok [],
    volumeAlerts := Except.ok [], whaleAlerts := Except.ok [],
    deepCoin := Except.ok [], sendFails := fun _ => false, now := 15 }

theorem c1_witness :
    (hourly_analysis envC1 []).msgs =
        Msg.btcReport ::
          (selectAltcoins (rank_opportunities jrC1 [] 75) 0).map Msg.altcoinAlert
          ++ [Msg.marketOverview]
    ∧ (selectAltcoins (rank_opportunities jrC1 [] 75) 0).length = 5 := by
  have h := c1_hourly_report_order envC1 [] jrC1 [] rfl (fun _ => rfl)
    (by decide) rfl rfl (by decide) (Or.inl (by decide)) (by decide)
  exact ⟨h.1, h.2.1⟩

lemma filter_errorNotification_map_volume (l : List VolAlert) :
    (l.map Msg.volumeSpikeAlert).filter isErrorNotification = [] := by
  induction l with
  | nil => rfl
  | cons a rest ih =>
      rw [List.map_cons, List.filter_cons_of_neg (by simp [isErrorNotification])]
      exact ih

/-- Claim C2 (counterexample): a four-hour run that aborts via DataUnavailable
(empty fetch, lines 92-93) sends no message at all, refuting the claim that
every aborting run of every scheduled job sends exactly one human-readable
error notification. -/
theorem c2_counterexample :
    abortsRun Job.fourHour envEmptyFetch
    ∧ (four_hour_analysis envEmptyFetch []).msgs = [] := by
  constructor
  · exact Or.inl rfl
  · rfl

/-- Claim C2 (amended): an aborting hourly run sends exactly one error
notification (and never retries it within the run), but aborting four-hour
and volume-monitor runs send none at all — their failures are only printed
to the log. -/
theorem c2_amended_error_notifications (env : Env) (st : JobTimes)
    (hch : env.channel = true) (hs : ∀ k, env.sendFails k = false) :
    (abortsRun Job.hourly env →
        ((hourly_analysis env st).msgs.filter isErrorNotification).length = 1)
    ∧ (abortsRun Job.fourHour env →
        ((four_hour_analysis env st).msgs.filter isErrorNotification).length = 0)
    ∧ (abortsRun Job.volume env →
        ((volume_spike_monitor env st).msgs.filter
          isErrorNotification).length = 0) := by
  refine ⟨?_, ?_, ?_⟩
  · intro hab
    by_cases hmd : env.marketData = []
    · rw [hourly_analysis_data_unavailable st hch hs hmd]
      rfl
    · rcases hab with h | ⟨e, hj⟩ | ⟨e, ha⟩
      · exact absurd h hmd
      · rw [hourly_analysis_john_err st e hch hs hmd hj]
        rfl
      · cases hjv : env.john with
        | error e2 =>
            rw [hourly_analysis_john_err st e2 hch hs hmd hjv]
            rfl
        | ok jr =>
            rw [hourly_analysis_alpha_err st jr e hch hs hmd hjv ha]
            rfl
  · intro hab
    by_cases hmd : env.marketData = []
    · rw [four_hour_analysis_data_unavailable st hch hmd]
      rfl
    · rcases hab with h | ⟨e, hj⟩ | ⟨e, ha⟩
      · exact absurd h hmd
      · rw [four_hour_analysis_john_err st e hch hmd hj]
        rfl
      · cases hjv : env.john with
        | error e2 =>
            rw [four_hour_analysis_john_err st e2 hch hmd hjv]
            rfl
        | ok jr =>
            rw [four_hour_analysis_alpha_err st jr e hch hmd hjv ha]
            rfl
  · intro hab
    rcases hab with ⟨e, hv⟩ | ⟨e, hw⟩
    · rw [volume_monitor_vol_err st e hch hv]
      rfl
    · cases hvv : env.volumeAlerts with
      | error e2 =>
          rw [volume_monitor_vol_err st e2 hch hvv]
          rfl
      | ok vas =>
          rw [volume_monitor_whale_err st vas e hch hs hvv hw]
          simp [filter_errorNotification_map_volume]

/-- A run environment where `john_analysis` raises. -/
def envJohnErr : Env :=
  { channel := true, marketData := [("BTC", [("price", 1)])],
    john := Except.error "boom", alpha := Except.ok [],
    volumeAlerts := Except.ok [], whaleAlerts := Except.ok [],
    deepCoin := Except.ok [], sendFails := fun _ => false, now := 17 }

theorem c2_witness :
    ((hourly_analysis envJohnErr []).msgs.filter isErrorNotification).length
      = 1 :=
  (c2_amended_error_notifications envJohnErr [] rfl (fun _ => rfl)).1
    (Or.inr (Or.inl ⟨"boom", rfl⟩))

/-- Claim C3: for every job, its `last_analysis_time` entry is unset until the
job completes a run without fatal error, an aborting run (DataUnavailable or
CollaboratorFailure) leaves the whole map unchanged, and along any sequence of
runs executed at non-decreasing times an existing entry never decreases. -/
theorem c3_last_success_time (runs : List (Job × Env)) (j : Job)
    (hmono : runs.Pairwise (fun a b => a.2.now ≤ b.2.now)) :
    ((∀ r ∈ runs, r.1 = j → runSucceeds r.1 r.2 = false) →
        (statesAfter runs).lookup (jobKey j) = none)
    ∧ (∀ env st, abortsRun j env → (runJob j env st).state = st)
    ∧ (∀ env st, runSucceeds j env = true →
        ((runJob j env st).state).lookup (jobKey j) = some env.now)
    ∧ (∀ pre rr post, runs = pre ++ rr :: post →
        ∀ v, (statesAfter pre).lookup (jobKey j) = some v →
          ∃ w, (statesAfter (pre ++ [rr])).lookup (jobKey j) = some w
            ∧ v ≤ w) := by
  refine ⟨?_, ?_, ?_, ?_⟩
  · intro h
    exact foldl_key_none runs [] j (by simp [List.lookup]) h
  · intro env st h
    exact runJob_state_of_aborts j env st h
  · intro env st h
    rw [runJob_state, h]
    simp only [if_true]
    exact lookup_setEntry_self st (jobKey j) env.now
  · intro pre rr post hsplit v hv
    rw [statesAfter_append]
    apply runJob_lookup_mono _ _ _ _ _ hv
    apply statesAfter_entriesLE
    intro q hq
    subst hsplit
    have hpw := List.pairwise_append.mp hmono
    exact hpw.2.2 q hq rr (by simp)

/-- A successful hourly run environment at time 10. -/
def envHourlyOk : Env :=
  { channel := true, marketData := [("BTC", [("price", 1)])],
    john := Except.ok [("BTC", [("score", 90)])], alpha := Except.ok [],
    volumeAlerts := Except.ok [], whaleAlerts := Except.ok [],
    deepCoin := Except.ok [], sendFails := fun _ => false, now := 10 }

/-- An hourly DataUnavailable abort environment at time 20. -/
def envHourlyAbort : Env :=
  { channel := true, marketData := [],
    john := Except.ok [], alpha := Except.ok [],
    volumeAlerts := Except.ok [], whaleAlerts := Except.ok [],
    deepCoin := Except.ok [], sendFails := fun _ => false, now := 20 }

theorem c3_witness :
    (runJob Job.hourly envHourlyAbort [("hourly", 10)]).state
      = [("hourly", 10)] :=
  (c3_last_success_time [(Job.hourly, envHourlyOk), (Job.hourly, envHourlyAbort)]
      Job.hourly
      (by simp [List.pairwise_cons, envHourlyOk, envHourlyAbort])).2.1
    envHourlyAbort [("hourly", 10)] (Or.inl rfl)

/-- The environment of the C4 counterexample: analysis raises and every
channel send raises as well. -/
def envC4 : Env :=
  { channel := true, marketData := [("BTC", [("price", 1)])],
    john := Except.error "boom", alpha := Except.ok [],
    volumeAlerts := Except.ok [], whaleAlerts := Except.ok [],
    deepCoin := Except.ok [], sendFails := fun _ => true, now := 19 }

/-- Claim C4 (counterexample): in the hourly job, when `john_analysis` raises
and the error-report send in the except block (line 79) itself raises, the
exception propagates out of the job body — errors raised while reporting the
error are not caught at the job boundary. -/
theorem c4_counterexample :
    (hourly_analysis envC4 []).raised = some "send failed" := rfl

/-- Claim C4 (amended): every error raised inside a run is caught at the job
boundary, except that in the hourly job an error raised while sending the
error report itself propagates out of the run.  Four-hour and volume-monitor
runs never propagate anything; an hourly run propagates nothing whenever its
channel sends succeed. -/
theorem c4_amended_error_containment (env : Env) (st : JobTimes) :
    (four_hour_analysis env st).raised = none
    ∧ (volume_spike_monitor env st).raised = none
    ∧ ((∀ k, env.sendFails k = false) →
        (hourly_analysis env st).raised = none) := by
  refine ⟨?_, ?_, ?_⟩
  · unfold four_hour_analysis
    cases h : fourHourTry env with
    | ok p => obtain ⟨t, u⟩ := p; simp
    | error p => obtain ⟨e, t⟩ := p; simp
  · unfold volume_spike_monitor
    cases h : volumeTry env with
    | ok t => simp
    | error p => obtain ⟨e, t⟩ := p; simp
  · intro hs
    unfold hourly_analysis
    cases h : hourlyTry env with
    | ok p => obtain ⟨t, u⟩ := p; simp
    | error p =>
        obtain ⟨e, t⟩ := p
        by_cases hc : env.channel
        · simp [hc, send_ok hs]
        · simp [hc]

theorem c4_witness :
    (hourly_analysis envEmptyFetch []).raised = none :=
  (c4_amended_error_containment envEmptyFetch []).2.2 (fun _ => rfl)
